import Mathlib

/-!
Shallow embedding of `src/webservice/GetStatsHandler.cpp` from the nebula
repository: the GET /stats HTTP handler that parses query parameters,
resolves stat names against the StatsManager registry, and formats the
result as plain text, pretty JSON, or a push-style monitor payload.

Conventions of the embedding:
  - `folly::dynamic` values are modelled by the inductive `Dyn`;
  - a thrown C++ exception (for example `folly::dynamic::asInt` on a
    non-numeric string, which raises a conversion error) is modelled by
    `Except.error ()`;
  - the stats registry (`StatsManager`, an external collaborator) is a
    structure of read functions; each read performed is recorded in a
    trace so that absence of registry calls is observable;
  - process configuration flags (`local_ip`, `port`, `role`) and the
    external network utilities (hostname lookup, host/ip validation) are
    an injected `MonitorConfig`;
  - wall-clock `::time(NULL)` is an explicit `now : Nat` argument.
-/

namespace GetStatsModel

/-- Model of `folly::dynamic`: the dynamically typed values that flow
between `getStats` and the formatters. -/
inductive Dyn where
  | int (i : Int)
  | str (s : String)
  | obj (entries : List (String × Dyn))
  | arr (elems : List Dyn)

/-- Model of `folly::dynamic::asString`: an int renders as its decimal
representation, a string is returned as is, and `asString` on an object
or array throws `TypeError` (modelled as `Except.error ()`). -/
def dynAsString : Dyn → Except Unit String
  | .int i => .ok (toString i)
  | .str s => .ok s
  | .obj _ => .error ()
  | .arr _ => .error ()

/-- Strict string-to-integer conversion as performed by
`folly::to<int64_t>` inside `folly::dynamic::asInt`: an optional sign
followed by at least one digit, consuming the whole string; anything
else throws a conversion error (`none` here). -/
def parseIntStrict : String → Option Int := fun s =>
  let digitsVal : List Char → Nat := fun cs =>
    cs.foldl (fun acc c => acc * 10 + (c.toNat - 48)) 0
  match s.toList with
  | [] => none
  | '-' :: rest =>
      if rest ≠ [] ∧ rest.all Char.isDigit then some (-(digitsVal rest : Int)) else none
  | '+' :: rest =>
      if rest ≠ [] ∧ rest.all Char.isDigit then some (digitsVal rest : Int) else none
  | cs =>
      if cs.all Char.isDigit then some (digitsVal cs : Int) else none

/-- Model of `folly::dynamic::asInt`: an int is returned as is, a string
is converted with `folly::to<int64_t>` (throwing on failure), and an
object or array throws `TypeError`. -/
def dynAsInt : Dyn → Except Unit Int
  | .int i => .ok i
  | .str s => match parseIntStrict s with
      | some i => .ok i
      | none => .error ()
  | .obj _ => .error ()
  | .arr _ => .error ()

/-- Iterating a `folly::dynamic` with a range-for (`for (auto& c : vals)`)
requires it to be an array, otherwise `TypeError` is thrown. -/
def arrElems : Dyn → Except Unit (List Dyn)
  | .arr l => .ok l
  | _ => .error ()

/-- Model of `folly::dynamic::items()`: the key/value pairs of an object;
on a non-object it throws `TypeError`. -/
def dynItems : Dyn → Except Unit (List (String × Dyn))
  | .obj ps => .ok ps
  | _ => .error ()

/-- Model of `folly::split(",", stats, statNames_, true)`: split the
character sequence on the comma delimiter with `ignoreEmpty = true`, so
empty segments are discarded and order is preserved. -/
def follySplit (s : String) : List String :=
  ((s.toList.splitOn ',').map List.asString).filter (fun seg => seg ≠ "")

/-- HTTP methods as seen by `proxygen::HTTPMethod` (the handler only
distinguishes GET from everything else). -/
inductive HttpMethod where
  | GET
  | POST
  | PUT
  | DELETE
  | HEAD
  | OPTIONS
deriving DecidableEq, Repr

/-- Internal error codes of the handler (`HttpCode`); only the
unsupported-method code is ever set by `GetStatsHandler::onRequest`. -/
inductive HttpCode where
  | E_UNSUPPORTED_METHOD
deriving DecidableEq, Repr

/-- The handler state mutated by `onRequest` and read by `onEOM`:
`err_`, `returnJson_`, `returnMonitor_` and `statNames_`. -/
structure HandlerState where
  err : Option HttpCode
  returnJson : Bool
  returnMonitor : Bool
  statNames : List String
deriving DecidableEq, Repr

/-- The handler fields as default-initialized at construction. -/
def initState : HandlerState :=
  { err := none, returnJson := false, returnMonitor := false, statNames := [] }

/-- Query parameters of the request, as the map proxygen exposes through
`hasQueryParam` / `getQueryParam`. -/
def QueryParams : Type := String → Option String

/-- Model of `GetStatsHandler::onRequest`: a non-GET method records
`E_UNSUPPORTED_METHOD` and returns at once; otherwise the `format`
parameter, when present, sets `returnJson_` / `returnMonitor_` by exact
string comparison, and the `stats` parameter, when present, is split on
commas (discarding empty segments) into `statNames_`. -/
def onRequest (method : HttpMethod) (params : QueryParams) : HandlerState :=
  if method ≠ HttpMethod.GET then
    { initState with err := some HttpCode.E_UNSUPPORTED_METHOD }
  else
    let st1 :=
      match params "format" with
      | some v => { initState with returnJson := v = "json", returnMonitor := v = "monitor" }
      | none => initState
    match params "stats" with
    | some stats => { st1 with statNames := follySplit stats }
    | none => st1

/-- The three output formats of the spec data model. -/
inductive OutputFormat where
  | PLAIN
  | JSON
  | MONITOR
deriving DecidableEq, Repr

/-- The format dispatch performed by `onEOM` (lines 71-77): `returnJson_`
is tested first, then `returnMonitor_`, otherwise plain text. -/
def outputFormat (st : HandlerState) : OutputFormat :=
  if st.returnJson then .JSON
  else if st.returnMonitor then .MONITOR
  else .PLAIN

/-- Comparison definition written from the words of the spec: the value
`json` maps to JSON, the value `monitor` maps to MONITOR, and any other
value or absence of the parameter maps to PLAIN. -/
def specFormatOfParam : Option String → OutputFormat
  | some "json" => .JSON
  | some "monitor" => .MONITOR
  | _ => .PLAIN

/-- The stats registry (`StatsManager`), an external collaborator: a
single-name read yields an integer value or a failure description
(`StatusOr<int64_t>` carrying `status.toString()` on failure), and the
read-all operation yields every known (name, value) pair in the order
the registry stores them. -/
structure Registry where
  readValue : String → Except String Int
  readAll : List (String × Int)

/-- Registry calls recorded while handling one request, so that the
absence of resolver activity is observable. -/
inductive RegCall where
  | readAllValue
  | readValue (name : String)
deriving DecidableEq, Repr

/-- Modelled from the spec: `StatsManager::readAllValue(stats)` is not
part of the source under `src/`; per the spec every known (name, value)
pair becomes one entry with a Value outcome, appended to the array in
the registry's native order as a single-key object. -/
def readAllValue (reg : Registry) : List Dyn :=
  reg.readAll.map (fun p => Dyn.obj [(p.1, Dyn.int p.2)])

/-- Model of the two `GetStatsHandler::addOneStat` overloads: push one
single-key object onto the array, the value being the integer for a
successful read and the error string for a failed one. -/
def addOneStat (statName : String) (v : Except String Int) : Dyn :=
  match v with
  | .ok statValue => Dyn.obj [(statName, Dyn.int statValue)]
  | .error e => Dyn.obj [(statName, Dyn.str e)]

/-- Model of `GetStatsHandler::getStats`: with no requested names, read
all stats from the registry; otherwise read each requested name in
order, folding per-name failures into the array as error strings.  The
second component records the registry calls made. -/
def getStats (statNames : List String) (reg : Registry) : Dyn × List RegCall :=
  if statNames = [] then
    (Dyn.arr (readAllValue reg), [RegCall.readAllValue])
  else
    (Dyn.arr (statNames.map (fun sn => addOneStat sn (reg.readValue sn))),
     statNames.map RegCall.readValue)

/-- Inner loop of `GetStatsHandler::toStr`: emit one `key=value` line,
newline-terminated, per key/value item of one counter object. -/
def toStrItems : List (String × Dyn) → Except Unit String
  | [] => .ok ""
  | (k, v) :: rest => do
    let s ← dynAsString v
    let restStr ← toStrItems rest
    .ok (k ++ "=" ++ s ++ "\n" ++ restStr)

/-- Outer loop of `GetStatsHandler::toStr` over the counters of the
array. -/
def toStrLoop : List Dyn → Except Unit String
  | [] => .ok ""
  | c :: rest => do
    let ps ← dynItems c
    let s ← toStrItems ps
    let restStr ← toStrLoop rest
    .ok (s ++ restStr)

/-- Model of `GetStatsHandler::toStr`: concatenate, in result order, one
`key=value` line per item of each counter of the array. -/
def toStr (vals : Dyn) : Except Unit String := do
  let elems ← arrElems vals
  toStrLoop elems

/-- Configuration and external network collaborators consumed by
`toMonitor`: the `local_ip`, `port` and `role` flags, the hostname that
`NetworkUtils::getHostname` would return, and
`NetworkUtils::validateHostOrIp`, whose failure carries the status
message returned as the body. -/
structure MonitorConfig where
  local_ip : String
  port : Int
  role : String
  hostname : String
  validateHostOrIp : String → Except String Unit

/-- Modelled from the spec: `HostAddr::toString` is not part of the
source under `src/`; per the spec the endpoint is the
`<host>:<port>` string (scenario: endpoint `10.0.0.1:9669`). -/
def hostAddrToString (host : String) (port : Int) : String :=
  host ++ ":" ++ toString port

/-- One element of the monitor payload array: the fields assigned to
`metric_obj` in `GetStatsHandler::toMonitor`. -/
structure MetricEntry where
  endpoint : String
  step : Int
  counterType : String
  timestamp : Nat
  metric : String
  value : Int
  tags : String
deriving DecidableEq, Repr

/-- The timestamp bucketing of `toMonitor` (lines 139-140):
`report_timestamp = nowtime - (nowtime % 60)` on unsigned seconds. -/
def reportTimestamp (nowtime : Nat) : Nat :=
  nowtime - nowtime % 60

/-- The payload entry built for one item: the shared
endpoint/step/counterType/timestamp fields, the fixed `pv` metric
label, the item's integer value, and the common tag prefix extended
with `,type=<key>`. -/
def mkMonitorEntry (endpoint commonTag : String) (ts : Nat) (k : String) (i : Int) :
    MetricEntry :=
  { endpoint := endpoint, step := 60, counterType := "GAUGE", timestamp := ts,
    metric := "pv", value := i, tags := commonTag ++ ",type=" ++ k }

/-- Inner loop of `toMonitor` over the items of one counter: each item
yields one payload entry whose value is `m.second.asInt()` (throwing on
a non-numeric string) and whose tags append `,type=<key>` to the common
tag prefix. -/
def monitorItems (endpoint commonTag : String) (ts : Nat) :
    List (String × Dyn) → Except Unit (List MetricEntry)
  | [] => .ok []
  | (k, v) :: rest => do
    let i ← dynAsInt v
    let restEntries ← monitorItems endpoint commonTag ts rest
    .ok (mkMonitorEntry endpoint commonTag ts k i :: restEntries)

/-- Outer loop of `toMonitor` over the counters of the array. -/
def monitorLoop (endpoint commonTag : String) (ts : Nat) :
    List Dyn → Except Unit (List MetricEntry)
  | [] => .ok []
  | c :: rest => do
    let ps ← dynItems c
    let entries ← monitorItems endpoint commonTag ts ps
    let restEntries ← monitorLoop endpoint commonTag ts rest
    .ok (entries ++ restEntries)

/-- Result of `toMonitor`: either the early return of the host/ip
validation failure message, or the list of payload entries to be
serialized (`stat_obj.dump()`). -/
inductive MonitorResult where
  | valFail (msg : String)
  | payload (entries : List MetricEntry)
deriving DecidableEq, Repr

/-- The host determination of `toMonitor` (lines 142-151): prefer the
configured local ip when non-empty, validating it and propagating the
validation failure message; otherwise resolve the machine hostname. -/
def resolveHost (cfg : MonitorConfig) : Except String String :=
  if cfg.local_ip = "" then .ok cfg.hostname
  else match cfg.validateHostOrIp cfg.local_ip with
    | .error msg => .error msg
    | .ok _ => .ok cfg.local_ip

/-- Model of `GetStatsHandler::toMonitor`: bucket the wall-clock time to
the minute, determine the host (short-circuiting with the validation
failure message as result), compose the endpoint and the common tag
prefix, and emit one entry per key/value item of the array. -/
def toMonitor (cfg : MonitorConfig) (nowtime : Nat) (vals : Dyn) :
    Except Unit MonitorResult :=
  match resolveHost cfg with
  | .error msg => .ok (.valFail msg)
  | .ok hostName => do
    let endpoint := hostAddrToString hostName cfg.port
    let commonTag :=
      "project=nebula" ++ ",city=jd" ++ ",ip_port=" ++ endpoint ++ ",module=" ++ cfg.role
    let elems ← arrElems vals
    let entries ← monitorLoop endpoint commonTag (reportTimestamp nowtime) elems
    .ok (.payload entries)

/-- Minimal JSON string escaping shared by the two serializers. -/
def jsonEscape (s : String) : String :=
  s.foldl (fun acc c =>
    if c = '"' then acc ++ "\\\""
    else if c = '\\' then acc ++ "\\\\"
    else if c = '\n' then acc ++ "\\n"
    else if c = '\t' then acc ++ "\\t"
    else if c = '\x0d' then acc ++ "\\r"
    else acc.push c) ""

/-- Serialization of one monitor payload entry as `nlohmann::json` dumps
an object: compact, keys in alphabetical order (`std::map` ordering). -/
def dumpEntry (e : MetricEntry) : String :=
  "\x7b\"counterType\":\"" ++ jsonEscape e.counterType ++
  "\",\"endpoint\":\"" ++ jsonEscape e.endpoint ++
  "\",\"metric\":\"" ++ jsonEscape e.metric ++
  "\",\"step\":" ++ toString e.step ++
  ",\"tags\":\"" ++ jsonEscape e.tags ++
  "\",\"timestamp\":" ++ toString e.timestamp ++
  ",\"value\":" ++ toString e.value ++ "\x7d"

/-- Serialization of the monitor payload array (`stat_obj.dump()`),
compact with comma-separated elements. -/
def dumpPayload (entries : List MetricEntry) : String :=
  "[" ++ String.intercalate "," (entries.map dumpEntry) ++ "]"

/-- The body `toMonitor` returns: the validation failure message itself,
or the dumped payload array. -/
def monitorBody : MonitorResult → String
  | .valFail msg => msg
  | .payload entries => dumpPayload entries

mutual

/-- Pretty serialization of one `folly::dynamic` node as
`folly::toPrettyJson` renders it (external collaborator; modelled as a
two-space-indented recursive printer). -/
def prettyVal (indent : String) : Dyn → String
  | .int i => toString i
  | .str s => "\"" ++ jsonEscape s ++ "\""
  | .obj ps =>
      match ps with
      | [] => "\x7b\x7d"
      | _ =>
        "\x7b\n" ++ String.intercalate ",\n" (prettyPairs indent ps) ++
        "\n" ++ indent ++ "\x7d"
  | .arr l =>
      match l with
      | [] => "[]"
      | _ =>
        "[\n" ++ String.intercalate ",\n" (prettyElems indent l) ++
        "\n" ++ indent ++ "]"

/-- Rendered lines of the elements of a pretty-printed array. -/
def prettyElems (indent : String) : List Dyn → List String
  | [] => []
  | d :: rest => (indent ++ "  " ++ prettyVal (indent ++ "  ") d) :: prettyElems indent rest

/-- Rendered lines of the members of a pretty-printed object. -/
def prettyPairs (indent : String) : List (String × Dyn) → List String
  | [] => []
  | (k, v) :: rest =>
      (indent ++ "  \"" ++ jsonEscape k ++ "\": " ++ prettyVal (indent ++ "  ") v) ::
      prettyPairs indent rest

end

/-- Pretty serialization of a whole `folly::dynamic` tree
(`folly::toPrettyJson`). -/
def toPrettyJson (d : Dyn) : String :=
  prettyVal "" d

/-- The status code and body of the one response emitted per request. -/
structure Response where
  status : Nat
  body : String
deriving DecidableEq, Repr

/-- Model of `GetStatsHandler::onEOM`: an unsupported-method error is
dispatched as 405 with an empty body before any registry read;
otherwise the stats are resolved and formatted per the dispatch flags,
and sent with status 200.  `Except.error ()` models an exception
escaping the noexcept `onEOM` (which terminates the process, emitting
no response).  The second component is the registry-call trace. -/
def onEOM (st : HandlerState) (reg : Registry) (cfg : MonitorConfig) (nowtime : Nat) :
    Except Unit (Response × List RegCall) :=
  match st.err with
  | some HttpCode.E_UNSUPPORTED_METHOD => .ok ({ status := 405, body := "" }, [])
  | none => do
    let (vals, trace) := getStats st.statNames reg
    let body ←
      if st.returnJson then pure (toPrettyJson vals)
      else if st.returnMonitor then (toMonitor cfg nowtime vals).map monitorBody
      else toStr vals
    .ok ({ status := 200, body := body }, trace)

/-- The whole request-to-response pipeline of the handler:
`onRequest` captures the state (onBody is a no-op), `onEOM` emits the
single response. -/
def handleRequest (method : HttpMethod) (params : QueryParams) (reg : Registry)
    (cfg : MonitorConfig) (nowtime : Nat) : Except Unit (Response × List RegCall) :=
  onEOM (onRequest method params) reg cfg nowtime

/-- Per-metric outcome of resolution, as the spec's data model states
it: an integer value or a failure description. -/
inductive Outcome where
  | value (v : Int)
  | error (e : String)
deriving DecidableEq, Repr

/-- One StatResult of the spec's data model. -/
structure StatResult where
  name : String
  outcome : Outcome
deriving DecidableEq, Repr

/-- The dynamic value an Outcome contributes: the integer itself for a
Value, the failure description string for an Error (type-preserving). -/
def outcomeDyn : Outcome → Dyn
  | .value v => Dyn.int v
  | .error e => Dyn.str e

/-- The dynamic element a StatResult contributes to the resolved array:
a single-key object whose value preserves the outcome's type. -/
def statElem (r : StatResult) : Dyn :=
  Dyn.obj [(r.name, outcomeDyn r.outcome)]

/-- A whole ResolvedStats as the dynamic array handed to the
formatters. -/
def resolvedToDyn (rs : List StatResult) : Dyn :=
  Dyn.arr (rs.map statElem)

/-- Spec-side description of resolving one requested name: a StatResult
with a Value outcome on success, an Error outcome carrying the failure
description on failure. -/
def specResolveOne (reg : Registry) (sn : String) : StatResult :=
  match reg.readValue sn with
  | .ok v => { name := sn, outcome := Outcome.value v }
  | .error e => { name := sn, outcome := Outcome.error e }

/-- Spec-side description of resolving an explicit name list: exactly
one StatResult per requested name, in request order. -/
def specResolveEach (statNames : List String) (reg : Registry) : List StatResult :=
  statNames.map (specResolveOne reg)

/-- Spec-side description of the whole resolver: an empty requested-name
list reads all registry pairs as Value outcomes; otherwise one
StatResult per requested name in request order. -/
def specResolve (statNames : List String) (reg : Registry) : List StatResult :=
  if statNames = [] then
    reg.readAll.map (fun p => { name := p.1, outcome := Outcome.value p.2 })
  else
    specResolveEach statNames reg

/-- Count of successfully resolved results in a ResolvedStats. -/
def valueCount (rs : List StatResult) : Nat :=
  (rs.filter (fun r => match r.outcome with | .value _ => true | .error _ => false)).length

/-- Stringification an Outcome receives in the plain format: integers
as decimal, errors as their text (`folly::dynamic::asString`). -/
def outcomeStr : Outcome → String
  | .value v => toString v
  | .error e => e

/-- The one line the plain formatter emits for one StatResult. -/
def plainLine (r : StatResult) : String :=
  r.name ++ "=" ++ outcomeStr r.outcome ++ "\n"

/-- The whole plain body: the emitted lines concatenated in result
order. -/
def plainBody : List StatResult → String
  | [] => ""
  | r :: rest => plainLine r ++ plainBody rest

/-- Splitting a string at its first `=`: the part before it and the
part after it (the whole string and the empty string when there is no
`=`). -/
def splitFirstEq (s : String) : String × String :=
  ((s.toList.takeWhile (fun c => c ≠ '=')).asString,
   ((s.toList.dropWhile (fun c => c ≠ '=')).drop 1).asString)

/-- The host name `toMonitor` ends up using on its successful path: the
configured local ip when non-empty, the machine hostname otherwise. -/
def hostString (cfg : MonitorConfig) : String :=
  if cfg.local_ip = "" then cfg.hostname else cfg.local_ip

/-- The common tag prefix composed by `toMonitor` on its successful
path. -/
def commonTagStr (cfg : MonitorConfig) : String :=
  "project=nebula" ++ ",city=jd" ++ ",ip_port=" ++
    hostAddrToString (hostString cfg) cfg.port ++ ",module=" ++ cfg.role

/-- A concrete registry used to instantiate the theorems: one readable
metric plus a fixed read-all content. -/
def regW : Registry :=
  { readValue := fun n =>
      if n = "num_queries" then Except.ok 42 else Except.error "metric not found",
    readAll := [("a", 1), ("b", 2)] }

/-- A concrete monitor configuration with an empty local ip (hostname
path). -/
def cfgW : MonitorConfig :=
  { local_ip := "", port := 9669, role := "storaged", hostname := "10.0.0.1",
    validateHostOrIp := fun _ => Except.ok () }

/-- A concrete monitor configuration whose non-empty local ip fails
host/ip validation. -/
def cfgBadIp : MonitorConfig :=
  { local_ip := "999.invalid", port := 9669, role := "graphd", hostname := "machine",
    validateHostOrIp := fun _ => Except.error "Bad ip format: 999.invalid" }

/-- Concrete query parameters built from an association list. -/
def paramsW (l : List (String × String)) : QueryParams := fun k =>
  (l.find? (fun p => p.1 = k)).map Prod.snd

/-- A concrete ResolvedStats with one successful and one failed
metric. -/
def rsPlain : List StatResult :=
  [{ name := "num_queries", outcome := Outcome.value 42 },
   { name := "nope", outcome := Outcome.error "metric not found" }]

/-- A concrete ResolvedStats with a single successful metric. -/
def rsValue : List StatResult :=
  [{ name := "num_queries", outcome := Outcome.value 42 }]

/-- A concrete ResolvedStats with a single failed metric. -/
def rsError : List StatResult :=
  [{ name := "nope", outcome := Outcome.error "metric not found" }]

/-- The one monitor payload entry produced for `rsValue` under `cfgW`
at time 1700000123. -/
def eW : MetricEntry :=
  { endpoint := "10.0.0.1:9669", step := 60, counterType := "GAUGE",
    timestamp := 1700000100, metric := "pv", value := 42,
    tags := "project=nebula,city=jd,ip_port=10.0.0.1:9669,module=storaged,type=num_queries" }

/-- The monitor payload produced for `rsValue` under `cfgW` at time
1700000123. -/
def esW : List MetricEntry := [eW]

lemma addOneStat_eq_statElem (reg : Registry) (sn : String) :
    addOneStat sn (reg.readValue sn) = statElem (specResolveOne reg sn) := by
  unfold addOneStat statElem specResolveOne outcomeDyn
  cases reg.readValue sn <;> rfl

lemma specResolveOne_name (reg : Registry) (sn : String) :
    (specResolveOne reg sn).name = sn := by
  unfold specResolveOne
  cases reg.readValue sn <;> rfl

lemma specResolveEach_names (reg : Registry) (names : List String) :
    (specResolveEach names reg).map StatResult.name = names := by
  induction names with
  | nil => rfl
  | cons n rest ih =>
    show (specResolveOne reg n).name :: (specResolveEach rest reg).map StatResult.name =
      n :: rest
    rw [specResolveOne_name, ih]

lemma splitOnP_go_all_commas (l : List Char) (h : ∀ c ∈ l, c = ',') :
    List.splitOnP.go (fun c => c == ',') l [] =
      List.replicate (l.length + 1) ([] : List Char) := by
  induction l with
  | nil => rfl
  | cons c t ih =>
    have hc : c = ',' := h c (List.mem_cons_self c t)
    subst hc
    rw [List.splitOnP.go, if_pos (by simp)]
    rw [ih (fun x hx => h x (List.mem_cons_of_mem _ hx))]
    rfl

lemma follySplit_only_commas (s : String) (h : ∀ c ∈ s.toList, c = ',') :
    follySplit s = [] := by
  unfold follySplit List.splitOn List.splitOnP
  rw [splitOnP_go_all_commas s.toList h]
  rw [List.filter_eq_nil_iff]
  intro seg hseg
  rw [List.map_replicate] at hseg
  rw [List.eq_of_mem_replicate hseg]
  simp [String.asString_nil]

lemma getStats_each (statNames : List String) (reg : Registry)
    (h : statNames ≠ []) :
    (getStats statNames reg).1 = resolvedToDyn (specResolveEach statNames reg) := by
  unfold getStats resolvedToDyn specResolveEach
  rw [if_neg h]
  simp only [List.map_map]
  exact congrArg Dyn.arr
    (List.map_congr_left (fun sn _ => addOneStat_eq_statElem reg sn))

lemma getStats_all (reg : Registry) :
    (getStats [] reg).1 =
      resolvedToDyn (reg.readAll.map
        (fun p => { name := p.1, outcome := Outcome.value p.2 })) := by
  unfold getStats resolvedToDyn readAllValue
  simp only [if_pos rfl, List.map_map]
  exact congrArg Dyn.arr (List.map_congr_left (fun p _ => rfl))

lemma outputFormat_onRequest_get (params : QueryParams) :
    outputFormat (onRequest HttpMethod.GET params) =
      specFormatOfParam (params "format") := by
  unfold onRequest outputFormat specFormatOfParam
  cases hf : params "format" with
  | none => cases hs : params "stats" <;> simp [initState]
  | some v =>
    cases hs : params "stats" <;>
      by_cases hj : v = "json" <;> by_cases hm : v = "monitor" <;>
        subst_vars <;> simp_all [initState]

lemma specFormatOfParam_eq_json (o : Option String) :
    specFormatOfParam o = OutputFormat.JSON ↔ o = some "json" := by
  unfold specFormatOfParam
  split <;> simp_all

lemma specFormatOfParam_eq_monitor (o : Option String) :
    specFormatOfParam o = OutputFormat.MONITOR ↔ o = some "monitor" := by
  unfold specFormatOfParam
  split <;> simp_all

/-- Claim C2: a non-GET method yields status 405 with an empty body and
makes no registry call (neither the resolver nor any formatter runs). -/
theorem claim2_non_get_405 (method : HttpMethod) (params : QueryParams)
    (reg : Registry) (cfg : MonitorConfig) (nowtime : Nat)
    (h : method ≠ HttpMethod.GET) :
    handleRequest method params reg cfg nowtime =
      Except.ok ({ status := 405, body := "" }, ([] : List RegCall)) := by
  unfold handleRequest onRequest onEOM
  simp [h]

theorem claim2_witness :
    HttpMethod.POST ≠ HttpMethod.GET ∧
    handleRequest HttpMethod.POST (paramsW []) regW cfgW 1700000123 =
      Except.ok ({ status := 405, body := "" }, ([] : List RegCall)) :=
  ⟨by decide,
   claim2_non_get_405 HttpMethod.POST (paramsW []) regW cfgW 1700000123 (by decide)⟩

/-- Claim C3: for a GET request the output format is JSON exactly when
the `format` parameter is present with value `json`, MONITOR exactly
when it is present with value `monitor`, and PLAIN in every other case
(exact matching, no rejection of unrecognized values). -/
theorem claim3_format_dispatch (params : QueryParams) :
    (outputFormat (onRequest HttpMethod.GET params) = OutputFormat.JSON ↔
      params "format" = some "json") ∧
    (outputFormat (onRequest HttpMethod.GET params) = OutputFormat.MONITOR ↔
      params "format" = some "monitor") ∧
    outputFormat (onRequest HttpMethod.GET params) =
      specFormatOfParam (params "format") := by
  refine ⟨?_, ?_, outputFormat_onRequest_get params⟩
  · rw [outputFormat_onRequest_get params]
    exact specFormatOfParam_eq_json (params "format")
  · rw [outputFormat_onRequest_get params]
    exact specFormatOfParam_eq_monitor (params "format")

/-- Claim C4 counterexample: with `stats` value `,,` the parsed name
list is empty, and the resolver then returns the registry's read-all
content instead of one StatResult per parsed name (which would be
zero results): the claim fails as stated. -/
theorem claim4_counterexample :
    (getStats (follySplit ",,") regW).1 ≠
      resolvedToDyn (specResolveEach (follySplit ",,") regW) := by
  have hsplit : follySplit ",," = [] := by decide
  rw [hsplit]
  simp [getStats, readAllValue, regW, resolvedToDyn, specResolveEach]

/-- Claim C4 (amended): the parser splits the `stats` value on commas
discarding empty segments and preserving order, and whenever the parsed
list is non-empty the resolver produces exactly one StatResult per
parsed name in request order, regardless of registry content (an
all-empty-segments value parses to the empty list and falls back to
resolving all registry metrics instead). -/
theorem claim4_split_then_resolve_each (statsVal : String) (reg : Registry)
    (h : follySplit statsVal ≠ []) :
    ("" ∉ follySplit statsVal) ∧
    (getStats (follySplit statsVal) reg).1 =
      resolvedToDyn (specResolveEach (follySplit statsVal) reg) ∧
    (specResolveEach (follySplit statsVal) reg).map StatResult.name =
      follySplit statsVal := by
  refine ⟨?_, getStats_each _ reg h, specResolveEach_names reg _⟩
  intro hmem
  have := List.of_mem_filter hmem
  simp at this

theorem claim4_witness :
    follySplit "a,b,c" = ["a", "b", "c"] ∧
    (("" ∉ follySplit "a,b,c") ∧
     (getStats (follySplit "a,b,c") regW).1 =
       resolvedToDyn (specResolveEach (follySplit "a,b,c") regW) ∧
     (specResolveEach (follySplit "a,b,c") regW).map StatResult.name =
       follySplit "a,b,c") :=
  ⟨by decide, claim4_split_then_resolve_each "a,b,c" regW (by decide)⟩

/-- Claim C10: a `stats` value consisting only of commas and empty
segments parses to the empty requested-name list, so the resolver
behaves exactly as if the parameter were absent and returns all
registry metrics. -/
theorem claim10_empty_segments_resolve_all (s : String) (params : QueryParams)
    (reg : Registry)
    (hp : params "stats" = some s)
    (hs : ∀ c ∈ s.toList, c = ',') :
    (onRequest HttpMethod.GET params).statNames = [] ∧
    getStats (onRequest HttpMethod.GET params).statNames reg = getStats [] reg ∧
    (getStats [] reg).1 =
      resolvedToDyn (reg.readAll.map
        (fun p => { name := p.1, outcome := Outcome.value p.2 })) := by
  have hsplit : follySplit s = [] := follySplit_only_commas s hs
  have hnames : (onRequest HttpMethod.GET params).statNames = [] := by
    unfold onRequest
    cases hf : params "format" <;> simp [hp, hf, hsplit, initState]
  exact ⟨hnames, by rw [hnames], getStats_all reg⟩

lemma okBind {α β : Type} (a : α) (f : α → Except Unit β) :
    (Except.ok a : Except Unit α) >>= f = f a := rfl

lemma errBind {α β : Type} (f : α → Except Unit β) :
    (Except.error () : Except Unit α) >>= f = Except.error () := rfl

lemma toStrItems_single (r : StatResult) :
    toStrItems [(r.name, outcomeDyn r.outcome)] = Except.ok (plainLine r) := by
  have h : toStrItems [(r.name, outcomeDyn r.outcome)] =
      Except.ok (r.name ++ "=" ++ outcomeStr r.outcome ++ "\n" ++ "") := by
    cases ho : r.outcome <;> rfl
  rw [h, String.append_empty]
  rfl

lemma toStrLoop_resolved (rs : List StatResult) :
    toStrLoop (rs.map statElem) = Except.ok (plainBody rs) := by
  induction rs with
  | nil => rfl
  | cons r rest ih =>
    have h : toStrLoop ((r :: rest).map statElem) =
        toStrItems [(r.name, outcomeDyn r.outcome)] >>= (fun s =>
          toStrLoop (rest.map statElem) >>= fun restStr => Except.ok (s ++ restStr)) := rfl
    rw [h]
    simp only [toStrItems_single, okBind, ih]
    rfl

lemma toStr_resolved (rs : List StatResult) :
    toStr (resolvedToDyn rs) = Except.ok (plainBody rs) := by
  have h : toStr (resolvedToDyn rs) = toStrLoop (rs.map statElem) := rfl
  rw [h, toStrLoop_resolved]

lemma takeWhile_append_stop (l m : List Char) (h : '=' ∉ l) :
    (l ++ '=' :: m).takeWhile (fun c => c ≠ '=') = l := by
  induction l with
  | nil => simp [List.takeWhile_cons]
  | cons c t ih =>
    have hc : ¬(c = '=') := fun hc => h (by rw [hc]; exact List.mem_cons_self _ _)
    rw [List.cons_append, List.takeWhile_cons, if_pos (by simp [hc]),
      ih (fun hm => h (List.mem_cons_of_mem _ hm))]

lemma dropWhile_append_stop (l m : List Char) (h : '=' ∉ l) :
    (l ++ '=' :: m).dropWhile (fun c => c ≠ '=') = '=' :: m := by
  induction l with
  | nil => simp [List.dropWhile_cons]
  | cons c t ih =>
    have hc : ¬(c = '=') := fun hc => h (by rw [hc]; exact List.mem_cons_self _ _)
    rw [List.cons_append, List.dropWhile_cons, if_pos (by simp [hc]),
      ih (fun hm => h (List.mem_cons_of_mem _ hm))]

lemma splitFirstEq_append (a b : String) (h : '=' ∉ a.toList) :
    splitFirstEq (a ++ "=" ++ b) = (a, b) := by
  have hdata : (a ++ "=" ++ b).toList = a.toList ++ '=' :: b.toList := by
    show (a ++ "=" ++ b).data = a.data ++ '=' :: b.data
    rw [String.data_append, String.data_append]
    have heq : ("=" : String).data = ['='] := rfl
    rw [heq, List.append_assoc]
    rfl
  unfold splitFirstEq
  rw [hdata, takeWhile_append_stop _ _ h, dropWhile_append_stop _ _ h]
  show (a.toList.asString, b.toList.asString) = (a, b)
  rw [String.asString_toList, String.asString_toList]

/-- Claim C7 counterexample: the round-trip fails as soon as a metric
name contains an equals sign: for the result named `a=b` with value 5
the emitted line is `a=b=5`, and splitting it on the first `=` yields
(`a`, `b=5`), not the original name and value. -/
theorem claim7_counterexample :
    toStr (resolvedToDyn [{ name := "a=b", outcome := Outcome.value 5 }]) =
      Except.ok "a=b=5\n" ∧
    splitFirstEq "a=b=5" = ("a", "b=5") ∧
    ("a", "b=5") ≠ ("a=b", "5") := by
  refine ⟨?_, by decide, by decide⟩
  rw [toStr_resolved]
  rfl

/-- Claim C7 (amended): the plain formatter emits, in result order, one
newline-terminated line `name=value` per StatResult (integers
stringified as decimal, errors as their text), and splitting an emitted
line on the first `=` recovers the original name and the stringified
value provided the name itself contains no `=`. -/
theorem claim7_plain_lines_roundtrip (rs : List StatResult) :
    toStr (resolvedToDyn rs) = Except.ok (plainBody rs) ∧
    (∀ r ∈ rs, plainLine r = r.name ++ "=" ++ outcomeStr r.outcome ++ "\n") ∧
    (∀ r ∈ rs, '=' ∉ r.name.toList →
      splitFirstEq (r.name ++ "=" ++ outcomeStr r.outcome) =
        (r.name, outcomeStr r.outcome)) :=
  ⟨toStr_resolved rs, fun _ _ => rfl, fun _ _ h => splitFirstEq_append _ _ h⟩

theorem claim7_witness :
    toStr (resolvedToDyn rsPlain) = Except.ok (plainBody rsPlain) ∧
    splitFirstEq ("num_queries" ++ "=" ++ outcomeStr (Outcome.value 42)) =
      ("num_queries", outcomeStr (Outcome.value 42)) :=
  ⟨(claim7_plain_lines_roundtrip rsPlain).1,
   (claim7_plain_lines_roundtrip rsPlain).2.2
     { name := "num_queries", outcome := Outcome.value 42 } (by decide) (by decide)⟩

theorem claim10_witness :
    (paramsW [("stats", ",,")]) "stats" = some ",," ∧
    (∀ c ∈ ",,".toList, c = ',') ∧
    ((onRequest HttpMethod.GET (paramsW [("stats", ",,")])).statNames = [] ∧
     getStats (onRequest HttpMethod.GET (paramsW [("stats", ",,")])).statNames regW =
       getStats [] regW ∧
     (getStats [] regW).1 =
       resolvedToDyn (regW.readAll.map
         (fun p => { name := p.1, outcome := Outcome.value p.2 }))) :=
  ⟨by decide, by decide,
   claim10_empty_segments_resolve_all ",," (paramsW [("stats", ",,")]) regW
     (by decide) (by decide)⟩

lemma resolveHost_ok_of (cfg : MonitorConfig)
    (hhost : cfg.local_ip = "" ∨ cfg.validateHostOrIp cfg.local_ip = Except.ok ()) :
    resolveHost cfg = Except.ok (hostString cfg) := by
  unfold resolveHost hostString
  rcases hhost with hip | hv
  · rw [if_pos hip, if_pos hip]
  · by_cases hip : cfg.local_ip = ""
    · rw [if_pos hip, if_pos hip]
    · rw [if_neg hip, if_neg hip, hv]

lemma resolveHost_ok_host (cfg : MonitorConfig) (hostName : String)
    (h : resolveHost cfg = Except.ok hostName) : hostName = hostString cfg := by
  unfold resolveHost at h
  unfold hostString
  by_cases hip : cfg.local_ip = ""
  · rw [if_pos hip] at h ⊢
    exact (Except.ok.inj h).symm
  · rw [if_neg hip] at h ⊢
    cases hv : cfg.validateHostOrIp cfg.local_ip <;> rw [hv] at h
    · exact absurd h (by simp)
    · exact (Except.ok.inj h).symm

lemma bindPayload_inv {α : Type} (x : Except Unit α)
    (f : α → Except Unit (List MetricEntry)) (es : List MetricEntry)
    (h : (x >>= fun a => f a >>= fun entries =>
        Except.ok (MonitorResult.payload entries)) =
      Except.ok (MonitorResult.payload es)) :
    ∃ a, x = Except.ok a ∧ f a = Except.ok es := by
  cases hx : x with
  | error u =>
    cases u
    rw [hx, errBind] at h
    exact absurd h (by simp)
  | ok a =>
    rw [hx] at h
    simp only [okBind] at h
    cases hf : f a with
    | error u =>
      cases u
      rw [hf, errBind] at h
      exact absurd h (by simp)
    | ok es2 =>
      rw [hf, okBind] at h
      have : es2 = es := by simpa using h
      exact ⟨a, rfl, by rw [hf, this]⟩

lemma toMonitor_payload_inv (cfg : MonitorConfig) (nowtime : Nat) (vals : Dyn)
    (es : List MetricEntry)
    (h : toMonitor cfg nowtime vals = Except.ok (MonitorResult.payload es)) :
    ∃ elems, arrElems vals = Except.ok elems ∧
      monitorLoop (hostAddrToString (hostString cfg) cfg.port) (commonTagStr cfg)
        (reportTimestamp nowtime) elems = Except.ok es := by
  unfold toMonitor at h
  cases hres : resolveHost cfg with
  | error msg =>
    rw [hres] at h
    exact absurd (Except.ok.inj h) (by simp)
  | ok hostName =>
    rw [hres] at h
    rw [resolveHost_ok_host cfg hostName hres] at h
    exact bindPayload_inv (arrElems vals) _ es h

lemma monitorLoop_cons (ep tag : String) (ts : Nat) (r : StatResult) (L : List Dyn) :
    monitorLoop ep tag ts (statElem r :: L) =
      (dynAsInt (outcomeDyn r.outcome) >>= fun i =>
        Except.ok [mkMonitorEntry ep tag ts r.name i]) >>= (fun entries =>
        monitorLoop ep tag ts L >>= (fun restE => Except.ok (entries ++ restE))) := rfl

lemma monitorLoop_resolved_mem (ep tag : String) (ts : Nat) :
    ∀ (rs : List StatResult) (es : List MetricEntry),
      monitorLoop ep tag ts (rs.map statElem) = Except.ok es →
      ∀ e ∈ es, e.endpoint = ep ∧ e.step = 60 ∧ e.counterType = "GAUGE" ∧
        e.timestamp = ts ∧ e.metric = "pv" ∧
        ∃ r ∈ rs, e.tags = tag ++ ",type=" ++ r.name := by
  intro rs
  induction rs with
  | nil =>
    intro es h e he
    have h2 : (Except.ok [] : Except Unit (List MetricEntry)) = Except.ok es := h
    obtain rfl : ([] : List MetricEntry) = es := Except.ok.inj h2
    exact absurd he (List.not_mem_nil e)
  | cons r rest ih =>
    intro es h e he
    rw [List.map_cons, monitorLoop_cons] at h
    cases hi : dynAsInt (outcomeDyn r.outcome) with
    | error u =>
      cases u
      rw [hi, errBind, errBind] at h
      exact absurd h (by simp)
    | ok i =>
      rw [hi] at h
      simp only [okBind] at h
      cases hl : monitorLoop ep tag ts (rest.map statElem) with
      | error u =>
        cases u
        rw [hl, errBind] at h
        exact absurd h (by simp)
      | ok restEs =>
        rw [hl, okBind] at h
        have hes : mkMonitorEntry ep tag ts r.name i :: restEs = es := by
          simpa using h
        rw [← hes] at he
        rcases List.mem_cons.mp he with rfl | hmem
        · exact ⟨rfl, rfl, rfl, rfl, rfl, r, List.mem_cons_self _ _, rfl⟩
        · obtain ⟨h1, h2, h3, h4, h5, rr, hrr, htags⟩ := ih restEs hl e hmem
          exact ⟨h1, h2, h3, h4, h5, rr, List.mem_cons_of_mem _ hrr, htags⟩

lemma monitorLoop_resolved_get (ep tag : String) (ts : Nat) :
    ∀ (rs : List StatResult) (es : List MetricEntry),
      monitorLoop ep tag ts (rs.map statElem) = Except.ok es →
      es.length = rs.length ∧
      ∀ i : Nat, ∀ hi : i < es.length, ∀ hr : i < rs.length,
        (es.get ⟨i, hi⟩).endpoint = ep ∧ (es.get ⟨i, hi⟩).step = 60 ∧
        (es.get ⟨i, hi⟩).counterType = "GAUGE" ∧ (es.get ⟨i, hi⟩).timestamp = ts ∧
        (es.get ⟨i, hi⟩).metric = "pv" ∧
        (es.get ⟨i, hi⟩).tags = tag ++ ",type=" ++ (rs.get ⟨i, hr⟩).name := by
  intro rs
  induction rs with
  | nil =>
    intro es h
    have h2 : (Except.ok [] : Except Unit (List MetricEntry)) = Except.ok es := h
    obtain rfl : ([] : List MetricEntry) = es := Except.ok.inj h2
    exact ⟨rfl, fun i hi _ => absurd hi (Nat.not_lt_zero i)⟩
  | cons r rest ih =>
    intro es h
    rw [List.map_cons, monitorLoop_cons] at h
    cases hi0 : dynAsInt (outcomeDyn r.outcome) with
    | error u =>
      cases u
      rw [hi0, errBind, errBind] at h
      exact absurd h (by simp)
    | ok i0 =>
      rw [hi0] at h
      simp only [okBind] at h
      cases hl : monitorLoop ep tag ts (rest.map statElem) with
      | error u =>
        cases u
        rw [hl, errBind] at h
        exact absurd h (by simp)
      | ok restEs =>
        rw [hl, okBind] at h
        have hes : mkMonitorEntry ep tag ts r.name i0 :: restEs = es := by
          simpa using h
        obtain ⟨hlen, hprops⟩ := ih restEs hl
        subst hes
        refine ⟨by simp [hlen], ?_⟩
        intro i hi hr
        cases i with
        | zero => exact ⟨rfl, rfl, rfl, rfl, rfl, rfl⟩
        | succ j =>
          exact hprops j (Nat.lt_of_succ_lt_succ hi) (Nat.lt_of_succ_lt_succ hr)

lemma monitorLoop_all_values (ep tag : String) (ts : Nat) :
    ∀ rs : List StatResult, (∀ r ∈ rs, ∃ v, r.outcome = Outcome.value v) →
      ∃ es, monitorLoop ep tag ts (rs.map statElem) = Except.ok es ∧
        es.length = rs.length := by
  intro rs
  induction rs with
  | nil => exact fun _ => ⟨[], rfl, rfl⟩
  | cons r rest ih =>
    intro hv
    obtain ⟨v, hov⟩ := hv r (List.mem_cons_self _ _)
    obtain ⟨es, hes, hlen⟩ := ih (fun x hx => hv x (List.mem_cons_of_mem _ hx))
    refine ⟨mkMonitorEntry ep tag ts r.name v :: es, ?_, by simp [hlen]⟩
    rw [List.map_cons, monitorLoop_cons, hov]
    simp only [outcomeDyn, dynAsInt, okBind, hes, List.singleton_append]

lemma monitorLoop_error_of_bad (ep tag : String) (ts : Nat) :
    ∀ rs : List StatResult,
      (∃ r ∈ rs, ∃ msg, r.outcome = Outcome.error msg ∧ parseIntStrict msg = none) →
      monitorLoop ep tag ts (rs.map statElem) = Except.error () := by
  intro rs
  induction rs with
  | nil =>
    rintro ⟨r, hr, -⟩
    exact absurd hr (List.not_mem_nil r)
  | cons r rest ih =>
    rintro ⟨x, hx, msg, hmsg, hparse⟩
    rw [List.map_cons, monitorLoop_cons]
    rcases List.mem_cons.mp hx with rfl | hmem
    · rw [hmsg]
      simp [outcomeDyn, dynAsInt, hparse, errBind]
    · have hrest := ih ⟨x, hmem, msg, hmsg, hparse⟩
      cases hi : dynAsInt (outcomeDyn r.outcome) with
      | error u =>
        cases u
        rfl
      | ok i =>
        simp only [okBind, hrest, errBind]

lemma valueCount_all (rs : List StatResult)
    (h : ∀ r ∈ rs, ∃ v, r.outcome = Outcome.value v) :
    valueCount rs = rs.length := by
  induction rs with
  | nil => rfl
  | cons r rest ih =>
    obtain ⟨v, hv⟩ := h r (List.mem_cons_self _ _)
    have ihr := ih (fun x hx => h x (List.mem_cons_of_mem _ hx))
    unfold valueCount at ihr ⊢
    simp [List.filter_cons, hv, ihr]

lemma commonTag_type (ep role nm : String) :
    ("project=nebula" ++ ",city=jd" ++ ",ip_port=" ++ ep ++ ",module=" ++ role) ++
        ",type=" ++ nm =
      "project=nebula,city=jd,ip_port=" ++ ep ++ ",module=" ++ role ++ ",type=" ++ nm := by
  have h1 : ("project=nebula" ++ ",city=jd" ++ ",ip_port=" : String) =
      "project=nebula,city=jd,ip_port=" := by decide
  rw [h1]

/-- Claim C1 counterexample: for a ResolvedStats holding one StatResult
with an Error outcome the monitor formatter does not skip the error and
emit an empty payload: `asInt` on the non-numeric failure text throws,
so no payload is produced at all. -/
theorem claim1_counterexample :
    valueCount rsError = 0 ∧
    ¬ ∃ es, toMonitor cfgW 1700000123 (resolvedToDyn rsError) =
        Except.ok (MonitorResult.payload es) := by
  refine ⟨by decide, ?_⟩
  rintro ⟨es, h⟩
  have hc : toMonitor cfgW 1700000123 (resolvedToDyn rsError) = Except.error () := rfl
  rw [hc] at h
  exact absurd h (by simp)

/-- Claim C1 (amended): when every StatResult outcome is a Value (and
the host determination succeeds), the monitor payload contains exactly
one entry per StatResult, equal to the number of successfully resolved
metrics; but a StatResult with an Error outcome is not skipped: its
text is fed to `asInt`, and when it is not a decimal integer the
formatter throws and no payload is produced. -/
theorem claim1_monitor_payload_per_value (cfg : MonitorConfig) (nowtime : Nat)
    (rs : List StatResult)
    (hhost : cfg.local_ip = "" ∨ cfg.validateHostOrIp cfg.local_ip = Except.ok ()) :
    ((∀ r ∈ rs, ∃ v, r.outcome = Outcome.value v) →
      ∃ es, toMonitor cfg nowtime (resolvedToDyn rs) =
          Except.ok (MonitorResult.payload es) ∧
        es.length = rs.length ∧ es.length = valueCount rs) ∧
    ((∃ r ∈ rs, ∃ msg, r.outcome = Outcome.error msg ∧ parseIntStrict msg = none) →
      toMonitor cfg nowtime (resolvedToDyn rs) = Except.error ()) := by
  have hres := resolveHost_ok_of cfg hhost
  have hto : toMonitor cfg nowtime (resolvedToDyn rs) =
      monitorLoop (hostAddrToString (hostString cfg) cfg.port) (commonTagStr cfg)
        (reportTimestamp nowtime) (rs.map statElem) >>= (fun entries =>
          Except.ok (MonitorResult.payload entries)) := by
    unfold toMonitor
    rw [hres]
    rfl
  constructor
  · intro hv
    obtain ⟨es, hml, hlen⟩ :=
      monitorLoop_all_values (hostAddrToString (hostString cfg) cfg.port)
        (commonTagStr cfg) (reportTimestamp nowtime) rs hv
    refine ⟨es, ?_, hlen, ?_⟩
    · rw [hto, hml, okBind]
    · rw [hlen, valueCount_all rs hv]
  · intro hbad
    rw [hto, monitorLoop_error_of_bad _ _ _ rs hbad, errBind]

theorem claim1_witness :
    ∃ es, toMonitor cfgW 1700000123 (resolvedToDyn rsValue) =
        Except.ok (MonitorResult.payload es) ∧
      es.length = rsValue.length ∧ es.length = valueCount rsValue :=
  (claim1_monitor_payload_per_value cfgW 1700000123 rsValue (Or.inl rfl)).1
    (by
      intro r hr
      simp only [rsValue, List.mem_singleton] at hr
      exact ⟨42, by rw [hr]⟩)

/-- Claim C5: every entry of a monitor payload produced at wall-clock
time `nowtime` carries the shared timestamp `nowtime - nowtime % 60`,
which is a multiple of 60 and at most `nowtime`. -/
theorem claim5_monitor_timestamp (cfg : MonitorConfig) (nowtime : Nat)
    (rs : List StatResult) (es : List MetricEntry)
    (h : toMonitor cfg nowtime (resolvedToDyn rs) = Except.ok (MonitorResult.payload es)) :
    ∀ e ∈ es, e.timestamp = nowtime - nowtime % 60 ∧
      60 ∣ e.timestamp ∧ e.timestamp ≤ nowtime := by
  obtain ⟨elems, harr, hml⟩ := toMonitor_payload_inv cfg nowtime _ es h
  have harr2 : (Except.ok (rs.map statElem) : Except Unit (List Dyn)) =
      Except.ok elems := harr
  rw [← Except.ok.inj harr2] at hml
  intro e he
  obtain ⟨-, -, -, hts, -, -⟩ := monitorLoop_resolved_mem _ _ _ rs es hml e he
  have hdvd : 60 ∣ reportTimestamp nowtime :=
    ⟨nowtime / 60, by unfold reportTimestamp; omega⟩
  have hle : reportTimestamp nowtime ≤ nowtime := by
    unfold reportTimestamp
    omega
  exact ⟨by rw [hts]; rfl, by rw [hts]; exact hdvd, by rw [hts]; exact hle⟩

theorem claim5_witness :
    eW.timestamp = 1700000123 - 1700000123 % 60 ∧
      60 ∣ eW.timestamp ∧ eW.timestamp ≤ 1700000123 :=
  claim5_monitor_timestamp cfgW 1700000123 rsValue esW rfl eW
    (List.mem_cons_self _ _)

/-- Claim C6: a MONITOR request whose configured non-empty local ip
fails host/ip validation short-circuits formatting and answers with
status 200 whose body is exactly the validation failure message. -/
theorem claim6_validation_failure_body (params : QueryParams) (reg : Registry)
    (cfg : MonitorConfig) (nowtime : Nat) (msg : String)
    (hf : params "format" = some "monitor")
    (hip : cfg.local_ip ≠ "")
    (hv : cfg.validateHostOrIp cfg.local_ip = Except.error msg) :
    (handleRequest HttpMethod.GET params reg cfg nowtime).map Prod.fst =
      Except.ok { status := 200, body := msg } := by
  have hres : resolveHost cfg = Except.error msg := by
    unfold resolveHost
    rw [if_neg hip, hv]
  have hmon : ∀ vals, toMonitor cfg nowtime vals =
      Except.ok (MonitorResult.valFail msg) := by
    intro vals
    unfold toMonitor
    rw [hres]
  unfold handleRequest onRequest onEOM
  cases hs : params "stats" <;>
    simp [hf, hs, initState, hmon, monitorBody, Except.map, okBind]

theorem claim6_witness :
    ((paramsW [("format", "monitor")]) "format" = some "monitor") ∧
    cfgBadIp.local_ip ≠ "" ∧
    cfgBadIp.validateHostOrIp cfgBadIp.local_ip =
      Except.error "Bad ip format: 999.invalid" ∧
    (handleRequest HttpMethod.GET (paramsW [("format", "monitor")]) regW cfgBadIp
        1700000123).map Prod.fst =
      Except.ok { status := 200, body := "Bad ip format: 999.invalid" } :=
  ⟨by decide, by decide, rfl,
   claim6_validation_failure_body (paramsW [("format", "monitor")]) regW cfgBadIp
     1700000123 "Bad ip format: 999.invalid" (by decide) (by decide) rfl⟩

/-- Claim C9: the payload contains one entry per item, positionally:
the entry generated for the i-th StatResult (named n) carries the
endpoint `host:port`, step 60, counterType `GAUGE`, metric `pv`, and
tags equal to the fixed prefix
`project=nebula,city=jd,ip_port=<host>:<port>,module=<role>` followed
by `,type=` and exactly that StatResult's name n. -/
theorem claim9_monitor_entry_fields (cfg : MonitorConfig) (nowtime : Nat)
    (rs : List StatResult) (es : List MetricEntry)
    (h : toMonitor cfg nowtime (resolvedToDyn rs) = Except.ok (MonitorResult.payload es)) :
    es.length = rs.length ∧
    ∀ i : Nat, ∀ hi : i < es.length, ∀ hr : i < rs.length,
      (es.get ⟨i, hi⟩).endpoint = hostString cfg ++ ":" ++ toString cfg.port ∧
      (es.get ⟨i, hi⟩).step = 60 ∧
      (es.get ⟨i, hi⟩).counterType = "GAUGE" ∧
      (es.get ⟨i, hi⟩).metric = "pv" ∧
      (es.get ⟨i, hi⟩).tags =
        "project=nebula,city=jd,ip_port=" ++ (hostString cfg ++ ":" ++ toString cfg.port) ++
          ",module=" ++ cfg.role ++ ",type=" ++ (rs.get ⟨i, hr⟩).name := by
  obtain ⟨elems, harr, hml⟩ := toMonitor_payload_inv cfg nowtime _ es h
  have harr2 : (Except.ok (rs.map statElem) : Except Unit (List Dyn)) =
      Except.ok elems := harr
  rw [← Except.ok.inj harr2] at hml
  obtain ⟨hlen, hprops⟩ := monitorLoop_resolved_get _ _ _ rs es hml
  refine ⟨hlen, fun i hi hr => ?_⟩
  obtain ⟨hep, hstep, hct, -, hmet, htags⟩ := hprops i hi hr
  refine ⟨hep, hstep, hct, hmet, ?_⟩
  rw [htags]
  exact commonTag_type (hostAddrToString (hostString cfg) cfg.port) cfg.role
    ((rs.get ⟨i, hr⟩).name)

theorem claim9_witness :
    esW.length = rsValue.length ∧
    (esW.get ⟨0, by decide⟩).endpoint = hostString cfgW ++ ":" ++ toString cfgW.port ∧
    (esW.get ⟨0, by decide⟩).step = 60 ∧
    (esW.get ⟨0, by decide⟩).counterType = "GAUGE" ∧
    (esW.get ⟨0, by decide⟩).metric = "pv" ∧
    (esW.get ⟨0, by decide⟩).tags =
      "project=nebula,city=jd,ip_port=" ++
        (hostString cfgW ++ ":" ++ toString cfgW.port) ++
        ",module=" ++ cfgW.role ++ ",type=" ++ (rsValue.get ⟨0, by decide⟩).name :=
  have h := claim9_monitor_entry_fields cfgW 1700000123 rsValue esW rfl
  ⟨h.1, (h.2 0 (by decide) (by decide)).1, (h.2 0 (by decide) (by decide)).2.1,
   (h.2 0 (by decide) (by decide)).2.2.1, (h.2 0 (by decide) (by decide)).2.2.2.1,
   (h.2 0 (by decide) (by decide)).2.2.2.2⟩

/-- Claim C8: the resolved array handed to the JSON formatter is an
array of single-key objects in result order whose values preserve the
outcome's type (a Value serializes as a JSON number, an Error as a JSON
string equal to its failure description), and the JSON-format response
body is the pretty-printed serialization of exactly that array. -/
theorem claim8_json_typing (statNames : List String) (reg : Registry)
    (cfg : MonitorConfig) (nowtime : Nat) :
    (getStats statNames reg).1 = resolvedToDyn (specResolve statNames reg) ∧
    (∀ n v, statElem { name := n, outcome := Outcome.value v } =
      Dyn.obj [(n, Dyn.int v)]) ∧
    (∀ n e, statElem { name := n, outcome := Outcome.error e } =
      Dyn.obj [(n, Dyn.str e)]) ∧
    (onEOM { initState with statNames := statNames, returnJson := true }
        reg cfg nowtime).map (fun p => p.1.body) =
      Except.ok (toPrettyJson (resolvedToDyn (specResolve statNames reg))) := by
  have h1 : (getStats statNames reg).1 = resolvedToDyn (specResolve statNames reg) := by
    by_cases h : statNames = []
    · subst h
      unfold specResolve
      rw [if_pos rfl]
      exact getStats_all reg
    · unfold specResolve
      rw [if_neg h]
      exact getStats_each statNames reg h
  have h2 : (onEOM { initState with statNames := statNames, returnJson := true }
        reg cfg nowtime).map (fun p => p.1.body) =
      Except.ok (toPrettyJson (getStats statNames reg).1) := rfl
  exact ⟨h1, fun n v => rfl, fun n e => rfl, by rw [h2, h1]⟩

end GetStatsModel
